import Mathlib

/-!
Verification of the SnapLLM inference server specification.

The repository ships HTTP client example scripts (`src/examples/*.py`);
the server core (vPID registry, model switch scheduler, tiered context
cache manager, ingest pipeline, query executor) is described by the
specification but its implementation is not part of the source tree.
Those components are therefore modelled faithfully from the spec below
(each such definition carries a `Modelled from the spec:` doc comment),
while the client-side wrapper behaviour (request payload defaults) is
embedded directly from the Python example code.
-/

namespace SnapLLM

/-- Device residency of a loaded model's weights (spec §3, Model Descriptor). -/
inductive Residency
  | accelerator
  | host
  | unloaded
deriving DecidableEq, Repr

/-- Modelled from the spec: Model Descriptor (spec §3) — the vPID registry
entry {model_id, weights handle (opaque), device residency, last_used}.
The weights handle is opaque, so it is modelled as a `Nat` token. -/
structure Descriptor where
  model_id : String
  weights : Nat
  residency : Residency
  last_used : Nat
deriving DecidableEq, Repr

/-- Cache tier for a context entry (spec §3): ordered hot < warm < cold. -/
inductive Tier
  | hot
  | warm
  | cold
deriving DecidableEq, Repr

/-- Rank of a tier: hot is the highest (hottest) tier, rank 0. A transition
to a smaller rank is a promotion, to a larger rank a demotion. -/
def Tier.rank : Tier → Nat
  | .hot => 0
  | .warm => 1
  | .cold => 2

/-- Modelled from the spec: the tier-dependent KV payload representation
(spec §9 design note: a tagged variant {Hot(buffers), Warm(buffers),
Cold(storage_ref)} so that illegal states are unrepresentable). Buffers
are modelled as lists of bytes (`Nat`). -/
inductive KVRep
  | hotBuf (buffers : List Nat)
  | warmBuf (buffers : List Nat)
  | coldRef (storage_ref : String)
deriving DecidableEq, Repr

/-- The tier a KV representation lives in. -/
def KVRep.tier : KVRep → Tier
  | .hotBuf _ => .hot
  | .warmBuf _ => .warm
  | .coldRef _ => .cold

/-- The in-memory buffers of a KV representation, when resident. -/
def KVRep.buffers? : KVRep → Option (List Nat)
  | .hotBuf b => some b
  | .warmBuf b => some b
  | .coldRef _ => none

/-- Modelled from the spec: Context Entry (spec §3) — {context_id, model_id,
name, KV payload (tier-dependent), size in tokens, created_at, ttl_seconds,
last_accessed}. The tier is derived from the payload representation. -/
structure ContextEntry where
  context_id : String
  model_id : String
  name : String
  rep : KVRep
  size_tokens : Nat
  created_at : Nat
  ttl_seconds : Nat
  last_accessed : Nat
deriving DecidableEq, Repr

/-- Structured error kinds of the core operations (spec §7). -/
inductive Err
  | ModelNotLoaded
  | DuplicateModel
  | ModelBusy
  | LoadFailure
  | ContextNotFound
  | ModelMismatch
  | CapacityExceeded
  | StorageFailure
  | PromotionFailure
deriving DecidableEq, Repr

/-- Modelled from the spec: the single-node server state — the vPID
Registry (descriptors plus the unique active pointer and the monotonic
switch sequence counter, spec §4.1, §4.2), the Context Cache Manager's
entry table, the Storage Backend (durable blobs content-addressed by
context id, spec §2), hit/miss counters and the context-id generator. -/
structure ServerState where
  models : List Descriptor
  active : Option String
  seq : Nat
  contexts : List ContextEntry
  storage : List (String × List Nat)
  hits : Nat
  misses : Nat
  next_ctx : Nat
deriving DecidableEq, Repr

/-- Registry lookup of a descriptor by model id (spec §4.1 `get`). -/
def findModel (s : ServerState) (mid : String) : Option Descriptor :=
  s.models.find? (fun d => d.model_id == mid)

/-- The currently active model id (spec §4.2 / §8 `get_active`). -/
def getActive (s : ServerState) : Option String :=
  s.active

/-- Modelled from the spec: `switch(model_id)` (spec §4.2) — fails with
`ModelNotLoaded` if the model id is not registered; otherwise repoints the
active descriptor reference, bumps the monotonic sequence counter and
updates `last_used` on the newly active descriptor. It does not touch any
weights, residency, context entry or storage blob. -/
def switch (now : Nat) (mid : String) (s : ServerState) :
    Except Err ServerState :=
  match findModel s mid with
  | none => .error .ModelNotLoaded
  | some _ =>
      .ok { s with
              active := some mid
              seq := s.seq + 1
              models := s.models.map (fun d =>
                if d.model_id == mid then { d with last_used := now } else d) }

/-- The observable identity of a descriptor that a switch may never
change: its id, weights handle and device residency. -/
def Descriptor.frozen (d : Descriptor) : String × Nat × Residency :=
  (d.model_id, d.weights, d.residency)

/-- C1: for every registered model the switch succeeds and makes it
active, regardless of the prior active model; for an unregistered model it
fails with `ModelNotLoaded`; on success it updates `last_used` on the
newly active descriptor and moves or reloads no weights (every
descriptor's weights handle and residency are untouched, and the contexts
and storage are untouched). -/
theorem switch_spec (now : Nat) (mid : String) (s : ServerState) :
    ((findModel s mid).isSome →
      ∃ s', switch now mid s = .ok s' ∧
        getActive s' = some mid ∧
        s'.models.map Descriptor.frozen = s.models.map Descriptor.frozen ∧
        s'.contexts = s.contexts ∧
        s'.storage = s.storage ∧
        (∀ d' ∈ s'.models, d'.model_id = mid → d'.last_used = now) ∧
        (∀ d' ∈ s'.models, d'.model_id ≠ mid →
          ∃ d ∈ s.models, d' = d)) ∧
    ((findModel s mid).isNone → switch now mid s = .error .ModelNotLoaded) := by
  constructor
  · intro hsome
    match hm : findModel s mid with
    | none => simp [hm] at hsome
    | some d =>
      refine ⟨{ s with
                  active := some mid
                  seq := s.seq + 1
                  models := s.models.map (fun d =>
                    if d.model_id == mid then { d with last_used := now }
                    else d) },
              by simp [switch, hm], rfl, ?_, rfl, rfl, ?_, ?_⟩
      · simp only [List.map_map]
        apply List.map_congr_left
        intro a _
        by_cases h : (a.model_id == mid) = true <;>
          simp [Descriptor.frozen, Function.comp, h]
      · intro d' hd' hid
        simp only [List.mem_map] at hd'
        obtain ⟨a, _, rfl⟩ := hd'
        by_cases h : (a.model_id == mid) = true <;> simp_all
      · intro d' hd' hid
        simp only [List.mem_map] at hd'
        obtain ⟨a, ha, rfl⟩ := hd'
        by_cases h : (a.model_id == mid) = true
        · simp_all
        · exact ⟨a, ha, by simp [h]⟩
  · intro hnone
    match hm : findModel s mid with
    | none => simp [switch, hm]
    | some d => simp [hm] at hnone

/-- A sample registry state with two loaded models, used to witness the
switch theorems on concrete input. -/
def sampleSwitchState : ServerState :=
  { models :=
      [ { model_id := "general", weights := 11, residency := .accelerator,
          last_used := 0 },
        { model_id := "coder", weights := 22, residency := .host,
          last_used := 1 } ]
    active := some "general"
    seq := 0
    contexts := []
    storage := []
    hits := 0
    misses := 0
    next_ctx := 0 }

/-- Witness for `switch_spec`: evaluated on the concrete two-model state,
switching to "coder". -/
theorem switch_spec_witness :
    ((findModel sampleSwitchState "coder").isSome →
      ∃ s', switch 7 "coder" sampleSwitchState = .ok s' ∧
        getActive s' = some "coder" ∧
        s'.models.map Descriptor.frozen
          = sampleSwitchState.models.map Descriptor.frozen ∧
        s'.contexts = sampleSwitchState.contexts ∧
        s'.storage = sampleSwitchState.storage ∧
        (∀ d' ∈ s'.models, d'.model_id = "coder" → d'.last_used = 7) ∧
        (∀ d' ∈ s'.models, d'.model_id ≠ "coder" →
          ∃ d ∈ sampleSwitchState.models, d' = d)) ∧
    ((findModel sampleSwitchState "coder").isNone →
      switch 7 "coder" sampleSwitchState = .error .ModelNotLoaded) :=
  switch_spec 7 "coder" sampleSwitchState

/-- Cache lookup of a context entry by context id. -/
def findCtx (s : ServerState) (cid : String) : Option ContextEntry :=
  s.contexts.find? (fun e => e.context_id == cid)

/-- Replace every entry carrying the given context id by the new entry
(in-place mutation of the entry's tier field / last_accessed, spec §3). -/
def replaceCtx (l : List ContextEntry) (cid : String) (e' : ContextEntry) :
    List ContextEntry :=
  l.map (fun e => if e.context_id == cid then e' else e)

/-- Storage Backend read: the durable blob stored under a key (spec §2,
content-addressed by context identifier). -/
def storageRead (st : List (String × List Nat)) (k : String) :
    Option (List Nat) :=
  (st.find? (fun p => p.1 == k)).map (fun p => p.2)

/-- Storage Backend write of a durable blob under a key. -/
def storageWrite (st : List (String × List Nat)) (k : String)
    (b : List Nat) : List (String × List Nat) :=
  (k, b) :: st

/-- Modelled from the spec: the external Compute Engine and tokenizer
(spec §2), an opaque capability interface {tokenize, run_forward}: the
prefill pass maps a model and a token sequence to a KV payload, and the
decode pass maps a model, a cached KV payload, query tokens and a token
budget to generated text. -/
structure Engine where
  tokenize : String → List Nat
  prefillKV : String → List Nat → List Nat
  decode : String → List Nat → List Nat → Nat → String

/-- Modelled from the spec: reconstruct the live KV buffers needed to
bring an entry to a hotter tier (spec §4.3 `cold → warm → hot`): resident
buffers are reused, a cold entry is read back from the Storage Backend;
a missing durable blob is a `StorageFailure`. -/
def fetchBuffers (st : List (String × List Nat)) (rep : KVRep) :
    Except Err (List Nat) :=
  match rep with
  | .hotBuf b => .ok b
  | .warmBuf b => .ok b
  | .coldRef r =>
      match storageRead st r with
      | some b => .ok b
      | none => .error .StorageFailure

/-- Modelled from the spec: `promote(context_id, target_tier)` (spec §4.3)
— fails with `ContextNotFound`; a no-op if the entry is already at or
above the target tier (idempotent, does not downgrade); otherwise
reconstructs the payload (from storage when cold) and installs it at the
target tier. `transferOk` models whether the tier-crossing transfer
succeeds; a failed transfer surfaces `PromotionFailure` and changes
nothing (spec §7 local recovery). -/
def promote (now : Nat) (cid : String) (target : Tier) (transferOk : Bool)
    (s : ServerState) : Except Err ServerState :=
  match findCtx s cid with
  | none => .error .ContextNotFound
  | some e =>
      if e.rep.tier.rank ≤ target.rank then .ok s
      else
        match fetchBuffers s.storage e.rep with
        | .error err => .error err
        | .ok b =>
            if transferOk then
              let rep' : KVRep :=
                match target with
                | .hot => .hotBuf b
                | .warm => .warmBuf b
                | .cold => e.rep
              let e' : ContextEntry :=
                { e with rep := rep', last_accessed := now }
              .ok { s with contexts := replaceCtx s.contexts cid e' }
            else .error .PromotionFailure

/-- Modelled from the spec: `demote(context_id, target_tier)` (spec §4.3)
— fails with `ContextNotFound`; a no-op if the entry is already at or
below the target tier; `hot → warm` keeps the buffers in host memory;
`→ cold` first writes a durable copy to the Storage Backend and only then
releases the in-memory buffers (write-before-evict). -/
def demote (now : Nat) (cid : String) (target : Tier) (s : ServerState) :
    Except Err ServerState :=
  match findCtx s cid with
  | none => .error .ContextNotFound
  | some e =>
      if target.rank ≤ e.rep.tier.rank then .ok s
      else
        match target, e.rep.buffers? with
        | .warm, some b =>
            let e' : ContextEntry :=
              { e with rep := .warmBuf b, last_accessed := now }
            .ok { s with contexts := replaceCtx s.contexts cid e' }
        | .cold, some b =>
            let e' : ContextEntry :=
              { e with rep := .coldRef cid, last_accessed := now }
            .ok { s with
                    storage := storageWrite s.storage cid b
                    contexts := replaceCtx s.contexts cid e' }
        | _, _ => .ok s

/-- Modelled from the spec: `ingest(content, model_id, name, ttl_seconds)`
(spec §4.4) — fails with `ModelNotLoaded` if the model id is not a loaded
descriptor; otherwise tokenizes the content, runs the prefill pass to
materialize the KV payload, registers the new Context Entry in the hot
tier under a freshly generated context id and writes the durable cold-tier
backing copy to the Storage Backend. -/
def ingest (eng : Engine) (now : Nat) (content : String)
    (mid nm : String) (ttl : Nat) (s : ServerState) :
    Except Err (String × ServerState) :=
  match findModel s mid with
  | none => .error .ModelNotLoaded
  | some _ =>
      let cid := "ctx-" ++ toString s.next_ctx
      let toks := eng.tokenize content
      let kv := eng.prefillKV mid toks
      let e : ContextEntry :=
        { context_id := cid, model_id := mid, name := nm
          rep := .hotBuf kv, size_tokens := toks.length
          created_at := now, ttl_seconds := ttl, last_accessed := now }
      .ok (cid, { s with
                    contexts := e :: s.contexts
                    storage := storageWrite s.storage cid kv
                    next_ctx := s.next_ctx + 1 })

/-- The model a query addresses: the explicitly requested model when one
is given, else the currently active model (spec §4.5). -/
def addressedModel (s : ServerState) (req : Option String) :
    Option String :=
  match req with
  | some m => some m
  | none => s.active

/-- Result of a query: generated text plus the cache-hit flag (spec §6). -/
structure QueryResult where
  response : String
  cache_hit : Bool
deriving DecidableEq, Repr

/-- Modelled from the spec: `query(context_id, query_text, max_tokens)`
(spec §4.5) — fails with `ContextNotFound`; if the entry's tier is below
hot it synchronously promotes the payload to hot; verifies the entry's
model id against the addressed (active or explicitly requested) model and
fails with `ModelMismatch` otherwise; then runs only the query tokens
through the compute engine seeded with the cached KV state, updates
`last_accessed` and the hit/miss counters. `cache_hit` is true exactly
when the entry was at the hot tier at the start of the call. -/
def query (eng : Engine) (now : Nat) (cid : String) (req : Option String)
    (qtext : String) (max_tokens : Nat) (s : ServerState) :
    Except Err (QueryResult × ServerState) :=
  match findCtx s cid with
  | none => .error .ContextNotFound
  | some e =>
      let hit := e.rep.tier == .hot
      match fetchBuffers s.storage e.rep with
      | .error err => .error err
      | .ok b =>
          match addressedModel s req with
          | none => .error .ModelNotLoaded
          | some m =>
              if m == e.model_id then
                let resp := eng.decode m b (eng.tokenize qtext) max_tokens
                let e' := { e with rep := .hotBuf b, last_accessed := now }
                .ok ({ response := resp, cache_hit := hit },
                     { s with
                         contexts := replaceCtx s.contexts cid e'
                         hits := if hit then s.hits + 1 else s.hits
                         misses := if hit then s.misses else s.misses + 1 })
              else .error .ModelMismatch

/-- An entry is expired when the time since its last access exceeds its
TTL (spec §4.3 `evict_expired`). -/
def expired (now : Nat) (e : ContextEntry) : Bool :=
  e.ttl_seconds < now - e.last_accessed

/-- Modelled from the spec: `evict_expired()` (spec §4.3) — scans entries
whose age since last access exceeds their TTL, transitions them to
deleted and releases their resources at every tier they occupy, the
Storage Backend copy included (spec §8 TTL expiry: "its storage is
released"). -/
def evictExpired (now : Nat) (s : ServerState) : ServerState :=
  let deadIds := (s.contexts.filter (fun e => expired now e)).map
    (fun e => e.context_id)
  { s with
      contexts := s.contexts.filter (fun e => !expired now e)
      storage := s.storage.filter (fun p => !deadIds.contains p.1) }

/-- Cache Manager entry lookup as exposed over HTTP (`GET
/api/v1/contexts/{id}`, spec §6): fails with `ContextNotFound`. -/
def getCtx (s : ServerState) (cid : String) : Except Err ContextEntry :=
  match findCtx s cid with
  | some e => .ok e
  | none => .error .ContextNotFound

/-- Per-tier entry counts reported by `stats()` (spec §4.3). -/
structure TierCounts where
  hotCount : Nat
  warmCount : Nat
  coldCount : Nat
deriving DecidableEq, Repr

/-- Modelled from the spec: the per-tier counts of `stats()` (spec §4.3,
read-only). -/
def stats (s : ServerState) : TierCounts :=
  { hotCount := (s.contexts.filter (fun e => e.rep.tier == .hot)).length
    warmCount := (s.contexts.filter (fun e => e.rep.tier == .warm)).length
    coldCount := (s.contexts.filter (fun e => e.rep.tier == .cold)).length }

/-! Helper lemmas about lookups. -/

theorem find_replaceCtx (l : List ContextEntry) (cid : String)
    (e' : ContextEntry) (h : (e'.context_id == cid) = true) :
    (replaceCtx l cid e').find? (fun e => e.context_id == cid)
      = (l.find? (fun e => e.context_id == cid)).map (fun _ => e') := by
  induction l with
  | nil => rfl
  | cons a t ih =>
      show List.find? (fun e => e.context_id == cid)
        ((if (a.context_id == cid) = true then e' else a) ::
          replaceCtx t cid e') = _
      by_cases hc : (a.context_id == cid) = true
      · rw [if_pos hc,
            List.find?_cons_of_pos (p := fun (x : ContextEntry) => x.context_id == cid) _ h,
            List.find?_cons_of_pos (p := fun (x : ContextEntry) => x.context_id == cid) _ hc,
            Option.map_some']
      · rw [if_neg hc,
            List.find?_cons_of_neg (p := fun (x : ContextEntry) => x.context_id == cid) _ hc,
            List.find?_cons_of_neg (p := fun (x : ContextEntry) => x.context_id == cid) _ hc,
            ih]

theorem findCtx_of_find (s : ServerState) (cid : String)
    (e : ContextEntry) (h : findCtx s cid = some e) :
    (e.context_id == cid) = true := by
  have h' : s.contexts.find? (fun e => e.context_id == cid) = some e := h
  exact List.find?_some (p := fun (x : ContextEntry) => x.context_id == cid) h'

/-- C3: promotion is idempotent and never downgrades — for an entry
already at or above the target tier `promote` is a no-op; for any target
and any outcome, a successful promote never leaves the entry at a lower
(colder) tier than before; and on an already-hot entry two consecutive
`promote(hot)` calls are both no-ops, with the per-tier `stats` counts
unchanged by the second call. -/
theorem promote_noop_spec (now now2 : Nat) (cid : String) (target : Tier)
    (ok ok2 : Bool) (s : ServerState) (e : ContextEntry)
    (hfind : findCtx s cid = some e) :
    (e.rep.tier.rank ≤ target.rank → promote now cid target ok s = .ok s) ∧
    (∀ tgt ok' s', promote now cid tgt ok' s = .ok s' →
      ∀ e', findCtx s' cid = some e' →
        e'.rep.tier.rank ≤ e.rep.tier.rank) ∧
    (e.rep.tier = .hot →
      ∃ s1, promote now cid .hot ok s = .ok s1 ∧
        ∃ s2, promote now2 cid .hot ok2 s1 = .ok s2 ∧
          s1 = s ∧ s2 = s ∧ stats s2 = stats s1) := by
  have hid : (e.context_id == cid) = true := findCtx_of_find s cid e hfind
  refine ⟨?_, ?_, ?_⟩
  · intro hat
    simp [promote, hfind, hat]
  · intro tgt ok' s' hp e' hfind'
    by_cases hat : e.rep.tier.rank ≤ tgt.rank
    · simp only [promote, hfind, if_pos hat] at hp
      cases hp
      rw [hfind'] at hfind
      cases hfind
      exact le_rfl
    · simp only [promote, hfind, if_neg hat] at hp
      cases hb : fetchBuffers s.storage e.rep with
      | error err => rw [hb] at hp; cases hp
      | ok b =>
          rw [hb] at hp
          cases ok' with
          | false => cases hp
          | true =>
              cases tgt with
              | hot =>
                  cases hp
                  have hrw := find_replaceCtx s.contexts cid
                    ({ e with rep := .hotBuf b, last_accessed := now }) hid
                  simp only [findCtx] at hfind'
                  rw [hrw] at hfind'
                  rw [show s.contexts.find? (fun x => x.context_id == cid)
                        = some e from hfind] at hfind'
                  cases hfind'
                  simp [KVRep.tier, Tier.rank]
              | warm =>
                  cases hp
                  have hrw := find_replaceCtx s.contexts cid
                    ({ e with rep := .warmBuf b, last_accessed := now }) hid
                  simp only [findCtx] at hfind'
                  rw [hrw] at hfind'
                  rw [show s.contexts.find? (fun x => x.context_id == cid)
                        = some e from hfind] at hfind'
                  cases hfind'
                  simp only [KVRep.tier, Tier.rank] at hat ⊢
                  omega
              | cold =>
                  cases hp
                  have hrw := find_replaceCtx s.contexts cid
                    ({ e with rep := e.rep, last_accessed := now }) hid
                  simp only [findCtx] at hfind'
                  rw [hrw] at hfind'
                  rw [show s.contexts.find? (fun x => x.context_id == cid)
                        = some e from hfind] at hfind'
                  cases hfind'
                  exact le_rfl
  · intro hhot
    have h1 : promote now cid .hot ok s = .ok s := by
      simp [promote, hfind, hhot, Tier.rank]
    have h2 : promote now2 cid .hot ok2 s = .ok s := by
      simp [promote, hfind, hhot, Tier.rank]
    exact ⟨s, h1, s, h2, rfl, rfl, rfl⟩

/-- A sample cache state: one loaded model "assistant", one hot entry
"c1", one cold entry "c2" whose blob sits in the Storage Backend. -/
def sampleCacheState : ServerState :=
  { models :=
      [ { model_id := "assistant", weights := 5, residency := .accelerator,
          last_used := 0 } ]
    active := some "assistant"
    seq := 0
    contexts :=
      [ { context_id := "c1", model_id := "assistant", name := "handbook"
          rep := .hotBuf [10, 20], size_tokens := 2
          created_at := 0, ttl_seconds := 3600, last_accessed := 0 },
        { context_id := "c2", model_id := "assistant", name := "manual"
          rep := .coldRef "c2", size_tokens := 3
          created_at := 0, ttl_seconds := 3600, last_accessed := 0 } ]
    storage := [("c2", [7, 8, 9]), ("c1", [10, 20])]
    hits := 0
    misses := 0
    next_ctx := 2 }

/-- The hot entry of `sampleCacheState`. -/
def sampleHotEntry : ContextEntry :=
  { context_id := "c1", model_id := "assistant", name := "handbook"
    rep := .hotBuf [10, 20], size_tokens := 2
    created_at := 0, ttl_seconds := 3600, last_accessed := 0 }

/-- Witness for `promote_noop_spec`: evaluated on the concrete
one-model/two-context state, promoting the already-hot entry "c1". -/
theorem promote_noop_spec_witness :
    (sampleHotEntry.rep.tier.rank ≤ Tier.hot.rank →
      promote 3 "c1" .hot true sampleCacheState = .ok sampleCacheState) ∧
    (∀ tgt ok' s', promote 3 "c1" tgt ok' sampleCacheState = .ok s' →
      ∀ e', findCtx s' "c1" = some e' →
        e'.rep.tier.rank ≤ sampleHotEntry.rep.tier.rank) ∧
    (sampleHotEntry.rep.tier = .hot →
      ∃ s1, promote 3 "c1" .hot true sampleCacheState = .ok s1 ∧
        ∃ s2, promote 4 "c1" .hot true s1 = .ok s2 ∧
          s1 = sampleCacheState ∧ s2 = sampleCacheState ∧
          stats s2 = stats s1) :=
  promote_noop_spec 3 4 "c1" .hot true true sampleCacheState
    sampleHotEntry (by decide)

/-- C5: ingest fails with `ModelNotLoaded` exactly when the model id is
not a currently loaded descriptor; on success it returns a non-empty
context id and the newly registered context entry sits in the hot tier
(scoped to the ingesting model). -/
theorem ingest_spec (eng : Engine) (now : Nat) (content mid nm : String)
    (ttl : Nat) (s : ServerState) :
    (ingest eng now content mid nm ttl s = .error .ModelNotLoaded ↔
      findModel s mid = none) ∧
    ((findModel s mid).isSome →
      ∃ cid s', ingest eng now content mid nm ttl s = .ok (cid, s') ∧
        cid.length ≠ 0 ∧
        ∃ e, findCtx s' cid = some e ∧ e.rep.tier = .hot ∧
          e.model_id = mid) := by
  constructor
  · cases hm : findModel s mid with
    | none => simp [ingest, hm]
    | some d => simp [ingest, hm]
  · intro hsome
    cases hm : findModel s mid with
    | none => simp [hm] at hsome
    | some d =>
        refine ⟨"ctx-" ++ toString s.next_ctx,
                { s with
                    contexts :=
                      { context_id := "ctx-" ++ toString s.next_ctx
                        model_id := mid, name := nm
                        rep := .hotBuf (eng.prefillKV mid (eng.tokenize content))
                        size_tokens := (eng.tokenize content).length
                        created_at := now, ttl_seconds := ttl
                        last_accessed := now } :: s.contexts
                    storage := storageWrite s.storage
                      ("ctx-" ++ toString s.next_ctx)
                      (eng.prefillKV mid (eng.tokenize content))
                    next_ctx := s.next_ctx + 1 },
                by simp [ingest, hm], ?_, ?_⟩
        · have h1 : ("ctx-" ++ toString s.next_ctx).length
              = "ctx-".length + (toString s.next_ctx).length := by
            simp [String.length_append]
          have h4 : "ctx-".length = 4 := rfl
          omega
        · refine ⟨{ context_id := "ctx-" ++ toString s.next_ctx
                    model_id := mid, name := nm
                    rep := .hotBuf (eng.prefillKV mid (eng.tokenize content))
                    size_tokens := (eng.tokenize content).length
                    created_at := now, ttl_seconds := ttl
                    last_accessed := now }, ?_, rfl, rfl⟩
          show List.find? _ (_ :: _) = _
          exact List.find?_cons_of_pos
            (p := fun (x : ContextEntry) => x.context_id ==
              "ctx-" ++ toString s.next_ctx) _ (by simp)

/-- A sample compute engine, used only to witness the theorems that
quantify over the external engine on concrete input. -/
def sampleEngine : Engine :=
  { tokenize := fun t => t.toList.map Char.toNat
    prefillKV := fun _ toks => toks.map (fun n => n + 1)
    decode := fun m kv q mt => m ++ toString (kv.length + q.length + mt) }

/-- Witness for `ingest_spec`: evaluated on the concrete one-model state,
ingesting a short document under the loaded model "assistant". -/
theorem ingest_spec_witness :
    (ingest sampleEngine 9 "doc" "assistant" "nb" 60 sampleCacheState
        = .error .ModelNotLoaded ↔
      findModel sampleCacheState "assistant" = none) ∧
    ((findModel sampleCacheState "assistant").isSome →
      ∃ cid s', ingest sampleEngine 9 "doc" "assistant" "nb" 60
          sampleCacheState = .ok (cid, s') ∧
        cid.length ≠ 0 ∧
        ∃ e, findCtx s' cid = some e ∧ e.rep.tier = .hot ∧
          e.model_id = "assistant") :=
  ingest_spec sampleEngine 9 "doc" "assistant" "nb" 60 sampleCacheState

/-- A context entry's payload can be materialized: it is memory-resident,
or its durable blob is present in the Storage Backend. -/
def payloadAvailable (s : ServerState) (e : ContextEntry) : Bool :=
  match e.rep with
  | .coldRef r => (storageRead s.storage r).isSome
  | _ => true

theorem fetchBuffers_of_available (s : ServerState) (e : ContextEntry)
    (hpay : payloadAvailable s e = true) :
    ∃ b, fetchBuffers s.storage e.rep = .ok b := by
  cases hrep : e.rep with
  | hotBuf b => exact ⟨b, by rw [fetchBuffers]⟩
  | warmBuf b => exact ⟨b, by rw [fetchBuffers]⟩
  | coldRef r =>
      rw [payloadAvailable, hrep] at hpay
      obtain ⟨b, hsb⟩ := Option.isSome_iff_exists.mp hpay
      exact ⟨b, by rw [fetchBuffers, hsb]⟩

/-- C2: for an existing context entry (addressed by its own model, with
its payload materializable) the query succeeds, `cache_hit` is true
exactly when the entry was at the hot tier at the start of the call, and
the entry's tier after the call is hot (a below-hot entry is
synchronously promoted and the call still completes). -/
theorem query_cache_hit_spec (eng : Engine) (now : Nat)
    (cid qtext : String) (mt : Nat) (s : ServerState) (e : ContextEntry)
    (hfind : findCtx s cid = some e)
    (hmodel : addressedModel s none = some e.model_id)
    (hpay : payloadAvailable s e = true) :
    ∃ r s', query eng now cid none qtext mt s = .ok (r, s') ∧
      (r.cache_hit = true ↔ e.rep.tier = .hot) ∧
      ∃ e', findCtx s' cid = some e' ∧ e'.rep.tier = .hot := by
  have hid := findCtx_of_find s cid e hfind
  obtain ⟨b, hb⟩ := fetchBuffers_of_available s e hpay
  refine ⟨{ response := eng.decode e.model_id b (eng.tokenize qtext) mt
            cache_hit := e.rep.tier == .hot },
          { s with
              contexts := replaceCtx s.contexts cid
                ({ e with rep := .hotBuf b, last_accessed := now })
              hits := if e.rep.tier == .hot then s.hits + 1 else s.hits
              misses := if e.rep.tier == .hot then s.misses
                        else s.misses + 1 },
          ?_, ?_, ?_⟩
  · simp [query, hfind, hb, hmodel]
  · exact beq_iff_eq
  · refine ⟨{ e with rep := .hotBuf b, last_accessed := now }, ?_, rfl⟩
    show (replaceCtx s.contexts cid
        ({ e with rep := .hotBuf b, last_accessed := now })).find?
        (fun (x : ContextEntry) => x.context_id == cid) = _
    rw [find_replaceCtx s.contexts cid
          ({ e with rep := .hotBuf b, last_accessed := now }) hid]
    rw [show s.contexts.find?
          (fun (x : ContextEntry) => x.context_id == cid) = some e
        from hfind]
    rfl

/-- Witness for `query_cache_hit_spec`: evaluated on the concrete state,
querying the cold entry "c2" (whose blob is durable): the call completes,
`cache_hit` is false and the entry ends at the hot tier. -/
theorem query_cache_hit_spec_witness :
    ∃ r s', query sampleEngine 5 "c2" none "q" 16 sampleCacheState
        = .ok (r, s') ∧
      (r.cache_hit = true ↔ (KVRep.coldRef "c2").tier = .hot) ∧
      ∃ e', findCtx s' "c2" = some e' ∧ e'.rep.tier = .hot :=
  query_cache_hit_spec sampleEngine 5 "c2" "q" 16 sampleCacheState
    { context_id := "c2", model_id := "assistant", name := "manual"
      rep := .coldRef "c2", size_tokens := 3
      created_at := 0, ttl_seconds := 3600, last_accessed := 0 }
    (by decide) (by decide) (by decide)

/-- C6: a context is model-scoped — with the context's payload
materializable, a query that addresses the model the context was ingested
under succeeds, and a query that addresses any other model fails with
`ModelMismatch`. -/
theorem query_model_scoped_spec (eng : Engine) (now : Nat) (cid : String)
    (req : Option String) (qtext : String) (mt : Nat) (s : ServerState)
    (e : ContextEntry) (m : String)
    (hfind : findCtx s cid = some e)
    (hpay : payloadAvailable s e = true)
    (haddr : addressedModel s req = some m) :
    (m = e.model_id →
      ∃ r s', query eng now cid req qtext mt s = .ok (r, s')) ∧
    (m ≠ e.model_id →
      query eng now cid req qtext mt s = .error .ModelMismatch) := by
  obtain ⟨b, hb⟩ := fetchBuffers_of_available s e hpay
  constructor
  · rintro rfl
    refine ⟨{ response := eng.decode e.model_id b (eng.tokenize qtext) mt
              cache_hit := e.rep.tier == .hot },
            { s with
                contexts := replaceCtx s.contexts cid
                  ({ e with rep := .hotBuf b, last_accessed := now })
                hits := if e.rep.tier == .hot then s.hits + 1 else s.hits
                misses := if e.rep.tier == .hot then s.misses
                          else s.misses + 1 },
            by simp [query, hfind, hb, haddr]⟩
  · intro hne
    simp [query, hfind, hb, haddr, hne]

/-- Witness for `query_model_scoped_spec`: on the concrete state, the hot
entry "c1" (ingested under "assistant") is queried while the addressed
model is the explicitly requested "other": since "other" is the addressed
model, the mismatch arm applies; the match arm is vacuous there, so also
instantiated with the matching model "assistant". -/
theorem query_model_scoped_spec_witness :
    (("other" = "assistant" →
      ∃ r s', query sampleEngine 6 "c1" (some "other") "q" 8
          sampleCacheState = .ok (r, s')) ∧
     ("other" ≠ "assistant" →
      query sampleEngine 6 "c1" (some "other") "q" 8 sampleCacheState
        = .error .ModelMismatch)) ∧
    (("assistant" = "assistant" →
      ∃ r s', query sampleEngine 6 "c1" (some "assistant") "q" 8
          sampleCacheState = .ok (r, s')) ∧
     ("assistant" ≠ "assistant" →
      query sampleEngine 6 "c1" (some "assistant") "q" 8 sampleCacheState
        = .error .ModelMismatch)) :=
  ⟨query_model_scoped_spec sampleEngine 6 "c1" (some "other") "q" 8
      sampleCacheState
      { context_id := "c1", model_id := "assistant", name := "handbook"
        rep := .hotBuf [10, 20], size_tokens := 2
        created_at := 0, ttl_seconds := 3600, last_accessed := 0 }
      "other" (by decide) (by decide) (by decide),
   query_model_scoped_spec sampleEngine 6 "c1" (some "assistant") "q" 8
      sampleCacheState
      { context_id := "c1", model_id := "assistant", name := "handbook"
        rep := .hotBuf [10, 20], size_tokens := 2
        created_at := 0, ttl_seconds := 3600, last_accessed := 0 }
      "assistant" (by decide) (by decide) (by decide)⟩

/-- Helper: the exact success computation of `query` once the entry, its
buffers and the addressed model are pinned down. -/
theorem query_run (eng : Engine) (now : Nat) (cid qtext : String)
    (mt : Nat) (s : ServerState) (e : ContextEntry) (b : List Nat)
    (hfind : findCtx s cid = some e)
    (hb : fetchBuffers s.storage e.rep = .ok b)
    (hmodel : addressedModel s none = some e.model_id) :
    query eng now cid none qtext mt s =
      .ok ({ response := eng.decode e.model_id b (eng.tokenize qtext) mt
             cache_hit := e.rep.tier == .hot },
           { s with
               contexts := replaceCtx s.contexts cid
                 ({ e with rep := .hotBuf b, last_accessed := now })
               hits := if e.rep.tier == .hot then s.hits + 1 else s.hits
               misses := if e.rep.tier == .hot then s.misses
                         else s.misses + 1 }) := by
  simp [query, hfind, hb, hmodel]

/-- C4: demoting a context to cold and promoting it back to hot restores
a bit-identical KV payload, and a query against the round-tripped state
returns the same response and cache-hit flag as the same query against
the never-demoted state. -/
theorem roundtrip_spec (eng : Engine) (n1 n2 n3 : Nat) (cid qtext : String)
    (mt : Nat) (s : ServerState) (e : ContextEntry) (b : List Nat)
    (hfind : findCtx s cid = some e)
    (hrep : e.rep = .hotBuf b)
    (hmodel : s.active = some e.model_id) :
    ∃ s1 s2, demote n1 cid .cold s = .ok s1 ∧
      promote n2 cid .hot true s1 = .ok s2 ∧
      (∃ e2, findCtx s2 cid = some e2 ∧ e2.rep = .hotBuf b) ∧
      (∃ r2 s2x r1 s1x,
        query eng n3 cid none qtext mt s2 = .ok (r2, s2x) ∧
        query eng n3 cid none qtext mt s = .ok (r1, s1x) ∧
        r2.response = r1.response ∧ r2.cache_hit = r1.cache_hit) := by
  have hid := findCtx_of_find s cid e hfind
  refine ⟨{ s with
              storage := storageWrite s.storage cid b
              contexts := replaceCtx s.contexts cid
                ({ e with rep := .coldRef cid, last_accessed := n1 }) },
          { s with
              storage := storageWrite s.storage cid b
              contexts := replaceCtx
                (replaceCtx s.contexts cid
                  ({ e with rep := .coldRef cid, last_accessed := n1 }))
                cid ({ e with rep := .hotBuf b, last_accessed := n2 }) },
          ?_, ?_, ?_, ?_⟩
  · simp [demote, hfind, hrep, KVRep.tier, Tier.rank, KVRep.buffers?]
  · have hfind1 : List.find?
        (fun (x : ContextEntry) => x.context_id == cid)
        (replaceCtx s.contexts cid
          ({ e with rep := .coldRef cid, last_accessed := n1 }))
        = some ({ e with rep := .coldRef cid, last_accessed := n1 }) := by
      rw [find_replaceCtx s.contexts cid
            ({ e with rep := .coldRef cid, last_accessed := n1 }) hid]
      rw [show s.contexts.find?
            (fun (x : ContextEntry) => x.context_id == cid) = some e
          from hfind]
      rfl
    simp [promote, findCtx, hfind1, KVRep.tier, Tier.rank, fetchBuffers,
          storageRead, storageWrite]
  · have hfind1 : List.find?
        (fun (x : ContextEntry) => x.context_id == cid)
        (replaceCtx s.contexts cid
          ({ e with rep := .coldRef cid, last_accessed := n1 }))
        = some ({ e with rep := .coldRef cid, last_accessed := n1 }) := by
      rw [find_replaceCtx s.contexts cid
            ({ e with rep := .coldRef cid, last_accessed := n1 }) hid]
      rw [show s.contexts.find?
            (fun (x : ContextEntry) => x.context_id == cid) = some e
          from hfind]
      rfl
    refine ⟨{ e with rep := .hotBuf b, last_accessed := n2 }, ?_, rfl⟩
    show List.find? (fun (x : ContextEntry) => x.context_id == cid)
      (replaceCtx
        (replaceCtx s.contexts cid
          ({ e with rep := .coldRef cid, last_accessed := n1 }))
        cid ({ e with rep := .hotBuf b, last_accessed := n2 })) = _
    rw [find_replaceCtx _ cid
          ({ e with rep := .hotBuf b, last_accessed := n2 }) hid, hfind1]
    rfl
  · have hfind1 : List.find?
        (fun (x : ContextEntry) => x.context_id == cid)
        (replaceCtx s.contexts cid
          ({ e with rep := .coldRef cid, last_accessed := n1 }))
        = some ({ e with rep := .coldRef cid, last_accessed := n1 }) := by
      rw [find_replaceCtx s.contexts cid
            ({ e with rep := .coldRef cid, last_accessed := n1 }) hid]
      rw [show s.contexts.find?
            (fun (x : ContextEntry) => x.context_id == cid) = some e
          from hfind]
      rfl
    have hfind2 : List.find?
        (fun (x : ContextEntry) => x.context_id == cid)
        (replaceCtx
          (replaceCtx s.contexts cid
            ({ e with rep := .coldRef cid, last_accessed := n1 }))
          cid ({ e with rep := .hotBuf b, last_accessed := n2 }))
        = some ({ e with rep := .hotBuf b, last_accessed := n2 }) := by
      rw [find_replaceCtx _ cid
            ({ e with rep := .hotBuf b, last_accessed := n2 }) hid, hfind1]
      rfl
    rw [query_run eng n3 cid qtext mt
          { s with
              storage := storageWrite s.storage cid b
              contexts := replaceCtx
                (replaceCtx s.contexts cid
                  ({ e with rep := .coldRef cid, last_accessed := n1 }))
                cid ({ e with rep := .hotBuf b, last_accessed := n2 }) }
          ({ e with rep := .hotBuf b, last_accessed := n2 }) b hfind2 rfl
          hmodel]
    rw [query_run eng n3 cid qtext mt s e b hfind
          (by rw [hrep]; rfl) hmodel]
    refine ⟨_, _, _, _, rfl, rfl, rfl, ?_⟩
    show ((KVRep.hotBuf b).tier == Tier.hot) = (e.rep.tier == Tier.hot)
    rw [hrep]

/-- Witness for `roundtrip_spec`: evaluated on the concrete state, the
hot entry "c1" is demoted to cold, promoted back, and queried. -/
theorem roundtrip_spec_witness :
    ∃ s1 s2, demote 1 "c1" .cold sampleCacheState = .ok s1 ∧
      promote 2 "c1" .hot true s1 = .ok s2 ∧
      (∃ e2, findCtx s2 "c1" = some e2 ∧ e2.rep = .hotBuf [10, 20]) ∧
      (∃ r2 s2x r1 s1x,
        query sampleEngine 3 "c1" none "q" 12 s2 = .ok (r2, s2x) ∧
        query sampleEngine 3 "c1" none "q" 12 sampleCacheState
          = .ok (r1, s1x) ∧
        r2.response = r1.response ∧ r2.cache_hit = r1.cache_hit) :=
  roundtrip_spec sampleEngine 1 2 3 "c1" "q" 12 sampleCacheState
    { context_id := "c1", model_id := "assistant", name := "handbook"
      rep := .hotBuf [10, 20], size_tokens := 2
      created_at := 0, ttl_seconds := 3600, last_accessed := 0 }
    [10, 20] (by decide) (by decide) (by decide)

/-- C7: once an eviction pass runs after expiry, an entry whose age since
last access exceeds its TTL is gone — lookup, `get` and `query` on its
context id all report `ContextNotFound`, and its Storage Backend copy is
released as well. -/
theorem ttl_eviction_spec (eng : Engine) (now n2 : Nat)
    (cid qtext : String) (mt : Nat) (s : ServerState)
    (hall : ∀ e ∈ s.contexts, e.context_id = cid → expired now e = true)
    (hsome : ∃ e ∈ s.contexts, e.context_id = cid) :
    findCtx (evictExpired now s) cid = none ∧
    getCtx (evictExpired now s) cid = .error .ContextNotFound ∧
    query eng n2 cid none qtext mt (evictExpired now s)
      = .error .ContextNotFound ∧
    storageRead (evictExpired now s).storage cid = none := by
  have hnone : findCtx (evictExpired now s) cid = none := by
    rw [findCtx]
    rw [List.find?_eq_none]
    intro x hx hbeq
    have hx' := List.mem_filter.mp hx
    have hxid : x.context_id = cid := by
      exact eq_of_beq hbeq
    have := hall x hx'.1 hxid
    rw [this] at hx'
    simp at hx'
  refine ⟨hnone, by simp [getCtx, hnone], by simp [query, hnone], ?_⟩
  rw [storageRead]
  rw [show (List.find? (fun p => p.1 == cid)
        (evictExpired now s).storage) = none from ?_]
  · rfl
  · rw [List.find?_eq_none]
    intro p hp hbeq
    have hp' := List.mem_filter.mp hp
    obtain ⟨e, he, heid⟩ := hsome
    have hcid : cid ∈ (s.contexts.filter (fun e => expired now e)).map
        (fun e => e.context_id) := by
      refine List.mem_map.mpr ⟨e, ?_, heid⟩
      exact List.mem_filter.mpr ⟨he, hall e he heid⟩
    have hp1 : p.1 = cid := eq_of_beq hbeq
    rw [hp1] at hp'
    have hcontains : (List.map (fun e => e.context_id)
        (List.filter (fun e => expired now e) s.contexts)).contains cid
        = true := List.elem_eq_true_of_mem hcid
    have := hp'.2
    rw [hcontains] at this
    simp at this

/-- A state holding one expired context "c9" (TTL 1, last accessed at 0,
now 100) together with its durable blob, to witness the eviction
theorem. -/
def sampleExpiredState : ServerState :=
  { models :=
      [ { model_id := "assistant", weights := 5, residency := .accelerator,
          last_used := 0 } ]
    active := some "assistant"
    seq := 0
    contexts :=
      [ { context_id := "c9", model_id := "assistant", name := "tmp"
          rep := .hotBuf [1, 2], size_tokens := 2
          created_at := 0, ttl_seconds := 1, last_accessed := 0 } ]
    storage := [("c9", [1, 2])]
    hits := 0
    misses := 0
    next_ctx := 1 }

/-- Witness for `ttl_eviction_spec`: the entry "c9" with `ttl_seconds = 1`
last accessed at time 0 is evicted by a pass at time 100. -/
theorem ttl_eviction_spec_witness :
    findCtx (evictExpired 100 sampleExpiredState) "c9" = none ∧
    getCtx (evictExpired 100 sampleExpiredState) "c9"
      = .error .ContextNotFound ∧
    query sampleEngine 101 "c9" none "q" 4 (evictExpired 100
      sampleExpiredState) = .error .ContextNotFound ∧
    storageRead (evictExpired 100 sampleExpiredState).storage "c9"
      = none :=
  ttl_eviction_spec sampleEngine 100 101 "c9" "q" 4 sampleExpiredState
    (by decide)
    ⟨{ context_id := "c9", model_id := "assistant", name := "tmp"
       rep := .hotBuf [1, 2], size_tokens := 2
       created_at := 0, ttl_seconds := 1, last_accessed := 0 },
     by decide, rfl⟩

/-- C8: a promotion whose tier-crossing transfer fails surfaces
`PromotionFailure` to the caller and performs no state change, so the
entry stays at exactly its prior tier; and any promote call that does
return success has moved the entry fully to the target tier or left it
unchanged — never a partial state. -/
theorem promotion_failure_spec (now : Nat) (cid : String) (target : Tier)
    (s : ServerState) (e : ContextEntry)
    (hfind : findCtx s cid = some e)
    (hbelow : target.rank < e.rep.tier.rank)
    (hpay : payloadAvailable s e = true) :
    promote now cid target false s = .error .PromotionFailure ∧
    (∀ ok s', promote now cid target ok s = .ok s' →
      ∃ e', findCtx s' cid = some e' ∧ e'.model_id = e.model_id ∧
        (e'.rep.tier = target ∨ e' = e)) := by
  have hid := findCtx_of_find s cid e hfind
  have hnle : ¬ e.rep.tier.rank ≤ target.rank := by omega
  obtain ⟨b, hb⟩ := fetchBuffers_of_available s e hpay
  constructor
  · simp [promote, hfind, if_neg hnle, hb]
  · intro ok s' hp
    simp only [promote, hfind, if_neg hnle] at hp
    rw [hb] at hp
    cases ok with
    | false => cases hp
    | true =>
        cases target with
        | hot =>
            cases hp
            refine ⟨{ e with rep := .hotBuf b, last_accessed := now },
                    ?_, rfl, Or.inl rfl⟩
            show (replaceCtx s.contexts cid
                ({ e with rep := .hotBuf b, last_accessed := now })).find?
                (fun (x : ContextEntry) => x.context_id == cid) = _
            rw [find_replaceCtx s.contexts cid
                  ({ e with rep := .hotBuf b, last_accessed := now }) hid]
            rw [show s.contexts.find?
                  (fun (x : ContextEntry) => x.context_id == cid) = some e
                from hfind]
            rfl
        | warm =>
            cases hp
            refine ⟨{ e with rep := .warmBuf b, last_accessed := now },
                    ?_, rfl, Or.inl rfl⟩
            show (replaceCtx s.contexts cid
                ({ e with rep := .warmBuf b, last_accessed := now })).find?
                (fun (x : ContextEntry) => x.context_id == cid) = _
            rw [find_replaceCtx s.contexts cid
                  ({ e with rep := .warmBuf b, last_accessed := now }) hid]
            rw [show s.contexts.find?
                  (fun (x : ContextEntry) => x.context_id == cid) = some e
                from hfind]
            rfl
        | cold =>
            exfalso
            cases hre : e.rep <;>
              rw [hre] at hbelow <;>
              simp [KVRep.tier, Tier.rank] at hbelow

/-- Witness for `promotion_failure_spec`: the cold entry "c2" of the
concrete state, promoted toward hot with a failing transfer. -/
theorem promotion_failure_spec_witness :
    promote 8 "c2" .hot false sampleCacheState
      = .error .PromotionFailure ∧
    (∀ ok s', promote 8 "c2" .hot ok sampleCacheState = .ok s' →
      ∃ e', findCtx s' "c2" = some e' ∧ e'.model_id = "assistant" ∧
        (e'.rep.tier = .hot ∨
          e' = { context_id := "c2", model_id := "assistant"
                 name := "manual", rep := .coldRef "c2", size_tokens := 3
                 created_at := 0, ttl_seconds := 3600,
                 last_accessed := 0 })) :=
  promotion_failure_spec 8 "c2" .hot sampleCacheState
    { context_id := "c2", model_id := "assistant", name := "manual"
      rep := .coldRef "c2", size_tokens := 3
      created_at := 0, ttl_seconds := 3600, last_accessed := 0 }
    (by decide) (by decide) (by decide)

/-- One serialized switch request: a successful switch installs the new
state, a failed one leaves the state untouched. -/
def switchStep (now : Nat) (st : ServerState) (mid : String) :
    ServerState :=
  match switch now mid st with
  | .ok st' => st'
  | .error _ => st

/-- Modelled from the spec: N concurrent `switch` calls are serialized by
the Scheduler's monotonic sequence counter (spec §4.2, §5), so their
combined effect is that of executing the switches one after another in
sequence-counter order. -/
def switchAll (now : Nat) (mids : List String) (s : ServerState) :
    ServerState :=
  mids.foldl (switchStep now) s

theorem find_isSome_map_touch (l : List Descriptor) (m mid : String)
    (now : Nat) :
    (List.find? (fun d => d.model_id == m)
      (l.map (fun d =>
        if d.model_id == mid then { d with last_used := now } else d))).isSome
    = (List.find? (fun d => d.model_id == m) l).isSome := by
  rw [List.find?_map]
  rw [show ((fun (d : Descriptor) => d.model_id == m) ∘ (fun d =>
        if d.model_id == mid then { d with last_used := now } else d))
      = fun (d : Descriptor) => d.model_id == m from ?_]
  · exact Option.isSome_map'
  · funext d
    by_cases h : (d.model_id == mid) = true <;> simp [Function.comp, h]

theorem findModel_switchStep (now : Nat) (mid m : String)
    (s : ServerState) :
    (findModel (switchStep now s mid) m).isSome
      = (findModel s m).isSome := by
  cases hm : findModel s mid with
  | none => simp [switchStep, switch, hm]
  | some d =>
      simp only [switchStep, switch, hm]
      exact find_isSome_map_touch s.models m mid now

theorem getActive_switchStep_of_some (now : Nat) (mid : String)
    (s : ServerState) (h : (findModel s mid).isSome = true) :
    getActive (switchStep now s mid) = some mid := by
  cases hm : findModel s mid with
  | none => rw [hm] at h; cases h
  | some d => simp [switchStep, switch, hm, getActive]

/-- C9: when N switch calls to loaded models run concurrently, they are
serialized in sequence-counter order; after all complete the active
pointer equals the logically-last of the N requested models — in
particular it is one of the N — and it refers to a loaded descriptor (no
reader observes an invalid or torn active reference), while every request
advances the monotonic sequence counter. -/
theorem concurrent_switch_spec (now : Nat) (mids : List String)
    (s : ServerState) (hne : mids ≠ [])
    (hreg : ∀ m ∈ mids, (findModel s m).isSome = true) :
    getActive (switchAll now mids s) = some (mids.getLast hne) ∧
    mids.getLast hne ∈ mids ∧
    (findModel (switchAll now mids s) (mids.getLast hne)).isSome = true ∧
    (switchAll now mids s).seq = s.seq + mids.length := by
  induction mids generalizing s with
  | nil => cases hne rfl
  | cons m t ih =>
      cases t with
      | nil =>
          have hm := hreg m (List.mem_singleton.mpr rfl)
          refine ⟨getActive_switchStep_of_some now m s hm, ?_, ?_, ?_⟩
          · exact List.mem_singleton.mpr rfl
          · rw [show switchAll now [m] s = switchStep now s m from rfl,
                findModel_switchStep]
            exact hm
          · cases hfm : findModel s m with
            | none => rw [hfm] at hm; cases hm
            | some d =>
                simp [switchAll, switchStep, switch, hfm]
      | cons b t2 =>
          have hstep : switchAll now (m :: b :: t2) s
              = switchAll now (b :: t2) (switchStep now s m) := rfl
          have hreg' : ∀ m' ∈ (b :: t2),
              (findModel (switchStep now s m) m').isSome = true := by
            intro m' hm'
            rw [findModel_switchStep]
            exact hreg m' (List.mem_cons_of_mem m hm')
          have hne2 : (b :: t2) ≠ ([] : List String) := by
            intro hc; cases hc
          obtain ⟨h1, h2, h3, h4⟩ := ih (switchStep now s m) hne2 hreg'
          have hlast : (m :: b :: t2).getLast hne
              = (b :: t2).getLast hne2 := List.getLast_cons hne2
          have hseqstep : (switchStep now s m).seq = s.seq + 1 := by
            cases hfm : findModel s m with
            | none =>
                have := hreg m (List.mem_cons_self m (b :: t2))
                rw [hfm] at this; cases this
            | some d => simp [switchStep, switch, hfm]
          refine ⟨?_, ?_, ?_, ?_⟩
          · rw [hstep, hlast]; exact h1
          · rw [hlast]; exact List.mem_cons_of_mem m h2
          · rw [hstep, hlast]; exact h3
          · rw [hstep, h4, hseqstep]
            simp [List.length_cons]
            omega

/-- Witness for `concurrent_switch_spec`: two serialized switch requests,
to "coder" then "general", on the concrete two-model state. -/
theorem concurrent_switch_spec_witness :
    getActive (switchAll 5 ["coder", "general"] sampleSwitchState)
      = some (["coder", "general"].getLast (by decide)) ∧
    ["coder", "general"].getLast (by decide) ∈ ["coder", "general"] ∧
    (findModel (switchAll 5 ["coder", "general"] sampleSwitchState)
      (["coder", "general"].getLast (by decide))).isSome = true ∧
    (switchAll 5 ["coder", "general"] sampleSwitchState).seq
      = sampleSwitchState.seq + ["coder", "general"].length :=
  concurrent_switch_spec 5 ["coder", "general"] sampleSwitchState
    (by decide) (by decide)

/-- The JSON body the client wrapper `ingest_context` in
`src/examples/context_caching.py` posts to `/api/v1/contexts/ingest`
(fields `content`, `model_id`, `name`, `ttl_seconds`). -/
structure IngestRequestBody where
  content : String
  model_id : String
  name : String
  ttl_seconds : Nat
deriving DecidableEq, Repr

/-- The client wrapper `ingest_context(content, model_id, name,
ttl_seconds=86400)` from `src/examples/context_caching.py` (lines 28-44):
it sends a POST whose JSON body carries the four arguments, with the
`ttl_seconds` parameter defaulting to 86400 when omitted. -/
def ingest_context (content : String) (model_id : String) (nm : String)
    (ttl_seconds : Nat := 86400) : IngestRequestBody :=
  { content := content, model_id := model_id, name := nm
    ttl_seconds := ttl_seconds }

/-- C10: every call of the client wrapper `ingest_context` that omits
`ttl_seconds` sends an ingest request whose `ttl_seconds` field is 86400
(24 hours). -/
theorem ingest_context_default_ttl (content model_id nm : String) :
    (ingest_context content model_id nm).ttl_seconds = 86400 := rfl

end SnapLLM
